import Mathlib

/-!
Shallow embedding of the SSC (ER) Kolkata allocation application (`app.py`):
the conflict detector, the remuneration calculator, the reference ledger,
the allocation store (delete-last), and exam deletion, together with proofs
of the specified properties.

Python dicts are modelled as insertion-ordered association lists, machine
state (`st.session_state`) as an explicit `AppState` record, and the code
paths that can raise (`del d[k]` on a missing key) as `Except`.
-/

/-- Remuneration rate table (`st.session_state.remuneration_rates`). -/
structure RemunerationRates where
  multiple_shifts : Nat
  single_shift : Nat
  mock_test : Nat
  ey_personnel : Nat
deriving DecidableEq, Repr

/-- A Centre Coordinator / Flying Squad allocation record, mirroring the dict
built in `main` (keys `Sl. No.`, `Venue`, `Date`, `Shift`, `IO Name`, `Area`,
`Role`, `Mock Test`, `Exam`, `Order No.`, `Page No.`, `Reference Remarks`). -/
structure IOAlloc where
  slNo : Nat
  venue : String
  date : String
  shift : String
  ioName : String
  area : String
  role : String
  mockTest : Bool
  exam : String
  orderNo : String
  pageNo : String
  refRemarks : String
deriving DecidableEq, Repr

/-- An EY Personnel allocation record, mirroring the dict built in `main`
(keys `Sl. No.`, `Venue`, `Date`, `Shift`, `EY Personnel`, `Mobile`, `Email`,
`ID Number`, `Designation`, `Department`, `Mock Test`, `Exam`, `Rate`,
`Order No.`, `Page No.`, `Reference Remarks`). -/
structure EYAlloc where
  slNo : Nat
  venue : String
  date : String
  shift : String
  eyPersonnel : String
  mobile : String
  email : String
  idNumber : String
  designation : String
  department : String
  mockTest : Bool
  exam : String
  rate : Nat
  orderNo : String
  pageNo : String
  refRemarks : String
deriving DecidableEq, Repr

/-- The outcome data of `check_allocation_conflict`.  The Python function
returns a formatted message string or `None`; the constructor records which
`return` fired and the venue interpolated into the message where the message
names the already-assigned venue. -/
inductive ConflictReason where
  | dupCoord
  | ccConflict (existingVenue : String)
  | dupEY
  | eyConflict (existingVenue : String)
deriving DecidableEq, Repr

/-- Condition of the duplicate-allocation comprehension in the `IO` branch of
`check_allocation_conflict` (same name, date, shift, venue and role). -/
def isDupCoord (p d s v r : String) (a : IOAlloc) : Bool :=
  a.ioName == p && a.date == d && a.shift == s && a.venue == v && a.role == r

/-- Condition of the Centre-Coordinator cross-venue comprehension (same name,
date, shift, a different venue, and existing role `Centre Coordinator`). -/
def isCCVenueClash (p d s v : String) (a : IOAlloc) : Bool :=
  a.ioName == p && a.date == d && a.shift == s && a.venue != v &&
    a.role == "Centre Coordinator"

/-- Condition of the `next(...)` generator that picks the venue named in the
Centre-Coordinator conflict message (note: no venue-difference condition). -/
def ccFirstMatch (p d s : String) (a : IOAlloc) : Bool :=
  a.ioName == p && a.date == d && a.shift == s && a.role == "Centre Coordinator"

/-- Condition of the duplicate-allocation comprehension in the `EY` branch
(same name, date, shift and venue; no role field). -/
def isDupEY (p d s v : String) (a : EYAlloc) : Bool :=
  a.eyPersonnel == p && a.date == d && a.shift == s && a.venue == v

/-- Condition of the EY cross-venue comprehension (same name, date, shift and
a different venue). -/
def isEYVenueClash (p d s v : String) (a : EYAlloc) : Bool :=
  a.eyPersonnel == p && a.date == d && a.shift == s && a.venue != v

/-- Condition of the `next(...)` generator naming the venue in the EY conflict
message (again without a venue-difference condition). -/
def eyFirstMatch (p d s : String) (a : EYAlloc) : Bool :=
  a.eyPersonnel == p && a.date == d && a.shift == s

/-- Embedding of `check_allocation_conflict(person_name, date, shift, venue,
role, allocation_type)`.  The session lists it reads are passed explicitly.
The `none` arms of the inner matches are unreachable (in Python the bare
`next(...)` would raise `StopIteration`); they are kept total with a dummy
venue. -/
def check_allocation_conflict (personName date shift venue role allocationType : String)
    (allocation : List IOAlloc) (eyAllocation : List EYAlloc) : Option ConflictReason :=
  if allocationType = "IO" then
    if allocation.any (isDupCoord personName date shift venue role) then
      some ConflictReason.dupCoord
    else if role = "Centre Coordinator" then
      if allocation.any (isCCVenueClash personName date shift venue) then
        match allocation.find? (ccFirstMatch personName date shift) with
        | some a => some (ConflictReason.ccConflict a.venue)
        | none => some (ConflictReason.ccConflict "")
      else none
    else none
  else if allocationType = "EY" then
    if eyAllocation.any (isDupEY personName date shift venue) then
      some ConflictReason.dupEY
    else if eyAllocation.any (isEYVenueClash personName date shift venue) then
      match eyAllocation.find? (eyFirstMatch personName date shift) with
      | some a => some (ConflictReason.eyConflict a.venue)
      | none => some (ConflictReason.eyConflict "")
    else none
  else none

lemma isDupCoord_iff (p d s v r : String) (a : IOAlloc) :
    isDupCoord p d s v r a = true ↔
      a.ioName = p ∧ a.date = d ∧ a.shift = s ∧ a.venue = v ∧ a.role = r := by
  simp [isDupCoord, and_assoc]

lemma isCCVenueClash_iff (p d s v : String) (a : IOAlloc) :
    isCCVenueClash p d s v a = true ↔
      a.ioName = p ∧ a.date = d ∧ a.shift = s ∧ a.venue ≠ v ∧
        a.role = "Centre Coordinator" := by
  simp [isCCVenueClash, and_assoc]

lemma ccFirstMatch_iff (p d s : String) (a : IOAlloc) :
    ccFirstMatch p d s a = true ↔
      a.ioName = p ∧ a.date = d ∧ a.shift = s ∧ a.role = "Centre Coordinator" := by
  simp [ccFirstMatch, and_assoc]

lemma isDupEY_iff (p d s v : String) (a : EYAlloc) :
    isDupEY p d s v a = true ↔
      a.eyPersonnel = p ∧ a.date = d ∧ a.shift = s ∧ a.venue = v := by
  simp [isDupEY, and_assoc]

lemma isEYVenueClash_iff (p d s v : String) (a : EYAlloc) :
    isEYVenueClash p d s v a = true ↔
      a.eyPersonnel = p ∧ a.date = d ∧ a.shift = s ∧ a.venue ≠ v := by
  simp [isEYVenueClash, and_assoc]

lemma eyFirstMatch_iff (p d s : String) (a : EYAlloc) :
    eyFirstMatch p d s a = true ↔
      a.eyPersonnel = p ∧ a.date = d ∧ a.shift = s := by
  simp [eyFirstMatch, and_assoc]

lemma any_isDupCoord_false {allocation : List IOAlloc} {p d s v r : String}
    (h : ¬ ∃ a ∈ allocation,
        a.ioName = p ∧ a.date = d ∧ a.shift = s ∧ a.venue = v ∧ a.role = r) :
    allocation.any (isDupCoord p d s v r) = false := by
  rw [Bool.eq_false_iff]
  intro hany
  rw [List.any_eq_true] at hany
  obtain ⟨a, ha, hp⟩ := hany
  exact h ⟨a, ha, (isDupCoord_iff p d s v r a).mp hp⟩

lemma find?_ccFirstMatch_exists {allocation : List IOAlloc} {p d s : String}
    (h : ∃ a ∈ allocation,
        a.ioName = p ∧ a.date = d ∧ a.shift = s ∧ a.role = "Centre Coordinator") :
    ∃ a, allocation.find? (ccFirstMatch p d s) = some a := by
  obtain ⟨a, ha, h1, h2, h3, h4⟩ := h
  cases hf : allocation.find? (ccFirstMatch p d s) with
  | some a0 => exact ⟨a0, rfl⟩
  | none =>
    exact absurd ((ccFirstMatch_iff p d s a).mpr ⟨h1, h2, h3, h4⟩)
      (List.find?_eq_none.mp hf a ha)

/-- C1. For an IO proposal with role Centre Coordinator (and no exact
duplicate, which rule 1 would catch first), a same-(person, date, shift)
Centre-Coordinator allocation at a different venue yields the cross-venue
conflict reason naming the already-assigned venue; a Flying Squad proposal
with no exact duplicate is always accepted, the cross-venue rule never
firing for it. -/
theorem c1_cc_exclusive_fs_exempt (allocation : List IOAlloc)
    (eyAllocation : List EYAlloc) (p d s v : String) :
    ((¬ ∃ a ∈ allocation, a.ioName = p ∧ a.date = d ∧ a.shift = s ∧ a.venue = v ∧
        a.role = "Centre Coordinator") →
      (∃ a ∈ allocation, a.ioName = p ∧ a.date = d ∧ a.shift = s ∧ a.venue ≠ v ∧
        a.role = "Centre Coordinator") →
      ∃ ev, check_allocation_conflict p d s v "Centre Coordinator" "IO"
            allocation eyAllocation = some (ConflictReason.ccConflict ev) ∧ ev ≠ v ∧
        ∃ a ∈ allocation, a.ioName = p ∧ a.date = d ∧ a.shift = s ∧ a.venue = ev ∧
          a.role = "Centre Coordinator") ∧
    ((¬ ∃ a ∈ allocation, a.ioName = p ∧ a.date = d ∧ a.shift = s ∧ a.venue = v ∧
        a.role = "Flying Squad") →
      check_allocation_conflict p d s v "Flying Squad" "IO"
        allocation eyAllocation = none) := by
  constructor
  · intro hnd hclash
    have hdup := any_isDupCoord_false hnd
    have hcl : allocation.any (isCCVenueClash p d s v) = true := by
      rw [List.any_eq_true]
      obtain ⟨a, ha, h1⟩ := hclash
      exact ⟨a, ha, (isCCVenueClash_iff p d s v a).mpr h1⟩
    obtain ⟨a, hfa⟩ := find?_ccFirstMatch_exists
      (by obtain ⟨a, ha, h1, h2, h3, _, h5⟩ := hclash; exact ⟨a, ha, h1, h2, h3, h5⟩)
    have hmem : a ∈ allocation := List.mem_of_find?_eq_some hfa
    have hpa := (ccFirstMatch_iff p d s a).mp (List.find?_some hfa)
    obtain ⟨e1, e2, e3, e4⟩ := hpa
    have hvne : a.venue ≠ v := fun hv => hnd ⟨a, hmem, e1, e2, e3, hv, e4⟩
    refine ⟨a.venue, ?_, hvne, ⟨a, hmem, e1, e2, e3, rfl, e4⟩⟩
    unfold check_allocation_conflict
    rw [if_pos rfl, hdup]
    simp only [Bool.false_eq_true, if_false, if_pos rfl, hcl, if_true, hfa]
  · intro hnd
    have hdup := any_isDupCoord_false hnd
    unfold check_allocation_conflict
    rw [if_pos rfl, hdup]
    simp only [Bool.false_eq_true, if_false]
    rw [if_neg (by decide)]

/-- C2. For an EY proposal (with no exact duplicate, which rule 1 would
catch first), a same-(person, date, shift) EY allocation at a different
venue yields the EY conflict reason naming the already-assigned venue,
for every value of the (unused) role argument. -/
theorem c2_ey_cross_venue_unconditional (allocation : List IOAlloc)
    (eyAllocation : List EYAlloc) (p d s v role : String)
    (hnd : ¬ ∃ a ∈ eyAllocation,
        a.eyPersonnel = p ∧ a.date = d ∧ a.shift = s ∧ a.venue = v)
    (hclash : ∃ a ∈ eyAllocation,
        a.eyPersonnel = p ∧ a.date = d ∧ a.shift = s ∧ a.venue ≠ v) :
    ∃ ev, check_allocation_conflict p d s v role "EY" allocation eyAllocation
        = some (ConflictReason.eyConflict ev) ∧ ev ≠ v ∧
      ∃ a ∈ eyAllocation, a.eyPersonnel = p ∧ a.date = d ∧ a.shift = s ∧
        a.venue = ev := by
  have hdup : eyAllocation.any (isDupEY p d s v) = false := by
    rw [Bool.eq_false_iff]
    intro hany
    rw [List.any_eq_true] at hany
    obtain ⟨a, ha, hp⟩ := hany
    exact hnd ⟨a, ha, (isDupEY_iff p d s v a).mp hp⟩
  have hcl : eyAllocation.any (isEYVenueClash p d s v) = true := by
    rw [List.any_eq_true]
    obtain ⟨a, ha, h1⟩ := hclash
    exact ⟨a, ha, (isEYVenueClash_iff p d s v a).mpr h1⟩
  have hfs : ∃ a, eyAllocation.find? (eyFirstMatch p d s) = some a := by
    obtain ⟨a, ha, h1, h2, h3, _⟩ := hclash
    cases hf : eyAllocation.find? (eyFirstMatch p d s) with
    | some a0 => exact ⟨a0, rfl⟩
    | none =>
      exact absurd ((eyFirstMatch_iff p d s a).mpr ⟨h1, h2, h3⟩)
        (List.find?_eq_none.mp hf a ha)
  obtain ⟨a, hfa⟩ := hfs
  have hmem : a ∈ eyAllocation := List.mem_of_find?_eq_some hfa
  obtain ⟨e1, e2, e3⟩ := (eyFirstMatch_iff p d s a).mp (List.find?_some hfa)
  have hvne : a.venue ≠ v := fun hv => hnd ⟨a, hmem, e1, e2, e3, hv⟩
  refine ⟨a.venue, ?_, hvne, ⟨a, hmem, e1, e2, e3, rfl⟩⟩
  unfold check_allocation_conflict
  rw [if_neg (by decide), if_pos rfl, hdup]
  simp only [Bool.false_eq_true, if_false, hcl, if_true, hfa]

/-- C3. The duplicate reason is returned exactly when an exact duplicate
exists (for IO including the role; for EY without any role), in particular
it wins over the cross-venue rule because it is evaluated first. -/
theorem c3_duplicate_rule_first (allocation : List IOAlloc)
    (eyAllocation : List EYAlloc) (p d s v role : String) :
    (check_allocation_conflict p d s v role "IO" allocation eyAllocation
        = some ConflictReason.dupCoord ↔
      ∃ a ∈ allocation,
        a.ioName = p ∧ a.date = d ∧ a.shift = s ∧ a.venue = v ∧ a.role = role) ∧
    (check_allocation_conflict p d s v role "EY" allocation eyAllocation
        = some ConflictReason.dupEY ↔
      ∃ a ∈ eyAllocation,
        a.eyPersonnel = p ∧ a.date = d ∧ a.shift = s ∧ a.venue = v) := by
  constructor
  · constructor
    · intro h
      unfold check_allocation_conflict at h
      rw [if_pos rfl] at h
      by_cases hd : allocation.any (isDupCoord p d s v role) = true
      · rw [List.any_eq_true] at hd
        obtain ⟨a, ha, hp⟩ := hd
        exact ⟨a, ha, (isDupCoord_iff p d s v role a).mp hp⟩
      · exfalso
        rw [if_neg hd] at h
        by_cases hr : role = "Centre Coordinator"
        · rw [if_pos hr] at h
          by_cases hc : allocation.any (isCCVenueClash p d s v) = true
          · rw [if_pos hc] at h
            cases hf : allocation.find? (ccFirstMatch p d s) <;> rw [hf] at h <;>
              simp at h
          · rw [if_neg hc] at h
            exact Option.noConfusion h
        · rw [if_neg hr] at h
          exact Option.noConfusion h
    · intro hex
      have hd : allocation.any (isDupCoord p d s v role) = true := by
        rw [List.any_eq_true]
        obtain ⟨a, ha, h1⟩ := hex
        exact ⟨a, ha, (isDupCoord_iff p d s v role a).mpr h1⟩
      unfold check_allocation_conflict
      rw [if_pos rfl, if_pos hd]
  · constructor
    · intro h
      unfold check_allocation_conflict at h
      rw [if_neg (by decide), if_pos rfl] at h
      by_cases hd : eyAllocation.any (isDupEY p d s v) = true
      · rw [List.any_eq_true] at hd
        obtain ⟨a, ha, hp⟩ := hd
        exact ⟨a, ha, (isDupEY_iff p d s v a).mp hp⟩
      · exfalso
        rw [if_neg hd] at h
        by_cases hc : eyAllocation.any (isEYVenueClash p d s v) = true
        · rw [if_pos hc] at h
          cases hf : eyAllocation.find? (eyFirstMatch p d s) <;> rw [hf] at h <;>
            simp at h
        · rw [if_neg hc] at h
          exact Option.noConfusion h
    · intro hex
      have hd : eyAllocation.any (isDupEY p d s v) = true := by
        rw [List.any_eq_true]
        obtain ⟨a, ha, h1⟩ := hex
        exact ⟨a, ha, (isDupEY_iff p d s v a).mpr h1⟩
      unfold check_allocation_conflict
      rw [if_neg (by decide), if_pos rfl, if_pos hd]

/-- C10. The IO cross-venue rule only looks at existing allocations whose
role is Centre Coordinator: when every existing allocation of the proposed
(person, date, shift) has a different role, a Centre Coordinator proposal is
accepted with no conflict. -/
theorem c10_cross_venue_ignores_non_cc (allocation : List IOAlloc)
    (eyAllocation : List EYAlloc) (p d s v : String)
    (h : ∀ a ∈ allocation, a.ioName = p → a.date = d → a.shift = s →
      a.role ≠ "Centre Coordinator") :
    check_allocation_conflict p d s v "Centre Coordinator" "IO"
      allocation eyAllocation = none := by
  have hdup : allocation.any (isDupCoord p d s v "Centre Coordinator") = false := by
    rw [Bool.eq_false_iff]
    intro hany
    rw [List.any_eq_true] at hany
    obtain ⟨a, ha, hp⟩ := hany
    obtain ⟨h1, h2, h3, _, h5⟩ :=
      (isDupCoord_iff p d s v "Centre Coordinator" a).mp hp
    exact h a ha h1 h2 h3 h5
  have hcl : allocation.any (isCCVenueClash p d s v) = false := by
    rw [Bool.eq_false_iff]
    intro hany
    rw [List.any_eq_true] at hany
    obtain ⟨a, ha, hp⟩ := hany
    obtain ⟨h1, h2, h3, _, h5⟩ := (isCCVenueClash_iff p d s v a).mp hp
    exact h a ha h1 h2 h3 h5
  unfold check_allocation_conflict
  rw [if_pos rfl, hdup]
  simp only [Bool.false_eq_true, if_false, if_pos rfl, hcl, ite_self]

/-- Sample Centre Coordinator allocation used by the claim witnesses. -/
def wCC : IOAlloc :=
  { slNo := 1, venue := "City School", date := "10-03-2024", shift := "Morning",
    ioName := "A. Sharma", area := "Kolkata", role := "Centre Coordinator",
    mockTest := false, exam := "CGL - 2024", orderNo := "12/ER/2024",
    pageNo := "5", refRemarks := "" }

/-- Sample Flying Squad allocation (same person and slot, different role). -/
def wFS : IOAlloc := { wCC with role := "Flying Squad" }

/-- Sample Centre Coordinator allocation at a second venue. -/
def wCC2 : IOAlloc := { wCC with slNo := 2, venue := "Town Hall" }

/-- Sample EY Personnel allocation used by the claim witnesses. -/
def wEY : EYAlloc :=
  { slNo := 1, venue := "City School", date := "10-03-2024", shift := "Morning",
    eyPersonnel := "R. Bose", mobile := "", email := "", idNumber := "",
    designation := "", department := "", mockTest := false, exam := "CGL - 2024",
    rate := 5000, orderNo := "12/ER/2024", pageNo := "5", refRemarks := "" }

theorem c1_witness :
    (¬ ∃ a ∈ [wCC], a.ioName = "A. Sharma" ∧ a.date = "10-03-2024" ∧
      a.shift = "Morning" ∧ a.venue = "Town Hall" ∧ a.role = "Centre Coordinator") ∧
    (∃ a ∈ [wCC], a.ioName = "A. Sharma" ∧ a.date = "10-03-2024" ∧
      a.shift = "Morning" ∧ a.venue ≠ "Town Hall" ∧ a.role = "Centre Coordinator") ∧
    (∃ ev, check_allocation_conflict "A. Sharma" "10-03-2024" "Morning" "Town Hall"
        "Centre Coordinator" "IO" [wCC] [] = some (ConflictReason.ccConflict ev) ∧
      ev ≠ "Town Hall" ∧
      ∃ a ∈ [wCC], a.ioName = "A. Sharma" ∧ a.date = "10-03-2024" ∧
        a.shift = "Morning" ∧ a.venue = ev ∧ a.role = "Centre Coordinator") ∧
    (check_allocation_conflict "A. Sharma" "10-03-2024" "Morning" "Town Hall"
      "Flying Squad" "IO" [wCC] [] = none) :=
  ⟨by decide, by decide,
    (c1_cc_exclusive_fs_exempt [wCC] [] "A. Sharma" "10-03-2024" "Morning"
      "Town Hall").1 (by decide) (by decide),
    (c1_cc_exclusive_fs_exempt [wCC] [] "A. Sharma" "10-03-2024" "Morning"
      "Town Hall").2 (by decide)⟩

theorem c2_witness :
    (¬ ∃ a ∈ [wEY], a.eyPersonnel = "R. Bose" ∧ a.date = "10-03-2024" ∧
      a.shift = "Morning" ∧ a.venue = "Town Hall") ∧
    (∃ a ∈ [wEY], a.eyPersonnel = "R. Bose" ∧ a.date = "10-03-2024" ∧
      a.shift = "Morning" ∧ a.venue ≠ "Town Hall") ∧
    (∃ ev, check_allocation_conflict "R. Bose" "10-03-2024" "Morning" "Town Hall"
        "" "EY" [] [wEY] = some (ConflictReason.eyConflict ev) ∧ ev ≠ "Town Hall" ∧
      ∃ a ∈ [wEY], a.eyPersonnel = "R. Bose" ∧ a.date = "10-03-2024" ∧
        a.shift = "Morning" ∧ a.venue = ev) :=
  ⟨by decide, by decide,
    c2_ey_cross_venue_unconditional [] [wEY] "R. Bose" "10-03-2024" "Morning"
      "Town Hall" "" (by decide) (by decide)⟩

theorem c3_witness :
    (check_allocation_conflict "A. Sharma" "10-03-2024" "Morning" "City School"
      "Centre Coordinator" "IO" [wCC, wCC2] [wEY] = some ConflictReason.dupCoord) ∧
    (check_allocation_conflict "R. Bose" "10-03-2024" "Morning" "City School"
      "" "EY" [wCC, wCC2] [wEY] = some ConflictReason.dupEY) :=
  ⟨(c3_duplicate_rule_first [wCC, wCC2] [wEY] "A. Sharma" "10-03-2024" "Morning"
      "City School" "Centre Coordinator").1.mpr (by decide),
    (c3_duplicate_rule_first [wCC, wCC2] [wEY] "R. Bose" "10-03-2024" "Morning"
      "City School" "").2.mpr (by decide)⟩

theorem c10_witness :
    (∀ a ∈ [wFS], a.ioName = "A. Sharma" → a.date = "10-03-2024" →
      a.shift = "Morning" → a.role ≠ "Centre Coordinator") ∧
    check_allocation_conflict "A. Sharma" "10-03-2024" "Morning" "Town Hall"
      "Centre Coordinator" "IO" [wFS] [] = none :=
  ⟨by decide,
    c10_cross_venue_ignores_non_cc [wFS] [] "A. Sharma" "10-03-2024" "Morning"
      "Town Hall" (by decide)⟩

/-- Entries of one pandas group of `alloc_df.groupby(['IO Name', 'Date'])`:
the coordinator allocations of one (person, date) pair. -/
def ioGroup (allocation : List IOAlloc) (p d : String) : List IOAlloc :=
  allocation.filter (fun a => a.ioName == p && a.date == d)

/-- Number of distinct shifts in a group (`group['Shift'].nunique()`). -/
def ioShiftCount (allocation : List IOAlloc) (p d : String) : Nat :=
  ((ioGroup allocation p d).map (fun a => a.shift)).dedup.length

/-- Mock-test flag of a group (`any(group['Mock Test'])`). -/
def ioGroupMock (allocation : List IOAlloc) (p d : String) : Bool :=
  (ioGroup allocation p d).any (fun a => a.mockTest)

/-- One row of the IO remuneration table produced by
`export_remuneration_report`. -/
structure IORemRow where
  ioName : String
  date : String
  totalShifts : Nat
  shiftLabel : String
  amount : Nat
deriving DecidableEq, Repr

/-- Row computed for one (person, date) group, following the rate branches of
`export_remuneration_report`: mock test first, then multiple shifts
(`shifts > 1`), else single shift. -/
def ioRemRow (allocation : List IOAlloc) (rates : RemunerationRates)
    (k : String × String) : IORemRow :=
  { ioName := k.1
    date := k.2
    totalShifts := ioShiftCount allocation k.1 k.2
    shiftLabel :=
      if ioGroupMock allocation k.1 k.2 then "Mock Test"
      else if 1 < ioShiftCount allocation k.1 k.2 then "Multiple Shifts"
      else "Single Shift"
    amount :=
      if ioGroupMock allocation k.1 k.2 then rates.mock_test
      else if 1 < ioShiftCount allocation k.1 k.2 then rates.multiple_shifts
      else rates.single_shift }

/-- The distinct (person, date) keys of the groupby.  Pandas iterates groups
in sorted key order; the claims proved below are order-independent, so the
deduplicated key list stands in for it. -/
def ioKeys (allocation : List IOAlloc) : List (String × String) :=
  (allocation.map (fun a => (a.ioName, a.date))).dedup

/-- The `io_remuneration` table of `export_remuneration_report`: one row per
distinct (person, date) group. -/
def io_remuneration (allocation : List IOAlloc) (rates : RemunerationRates) :
    List IORemRow :=
  (ioKeys allocation).map (ioRemRow allocation rates)

lemma map_filter_swap {α β : Type} (f : α → β) (q : β → Bool) :
    ∀ l : List α, (l.map f).filter q = (l.filter (fun x => q (f x))).map f := by
  intro l
  induction l with
  | nil => rfl
  | cons x xs ih =>
    simp only [List.map_cons, List.filter_cons]
    cases hq : q (f x) <;> simp [hq, ih]

lemma length_filter_eq_one_of_nodup {α : Type} (q : α → Bool) (x : α)
    (hq : ∀ y, q y = true ↔ y = x) :
    ∀ l : List α, l.Nodup → x ∈ l → (l.filter q).length = 1 := by
  intro l
  induction l with
  | nil => intro _ hx; cases hx
  | cons a l ih =>
    intro hnd hx
    rw [List.nodup_cons] at hnd
    rcases List.mem_cons.mp hx with h | h
    · subst h
      rw [List.filter_cons, if_pos ((hq x).mpr rfl)]
      have hnil : l.filter q = [] := by
        rw [List.filter_eq_nil_iff]
        intro b hb hqb
        exact hnd.1 (((hq b).mp hqb) ▸ hb)
      rw [hnil]
      rfl
    · have hax : ¬ (q a = true) := fun hqa => hnd.1 (((hq a).mp hqa) ▸ h)
      rw [List.filter_cons, if_neg hax]
      exact ih hnd.2 h

/-- C4. The remuneration table has exactly one row per (person, date) group
present in the allocation list, and that row's amount follows the rate rule:
mock test wins, else multiple-shifts when the group has more than one
distinct shift, else single-shift.  In particular a two-shift non-mock day
is paid the multiple-shifts rate exactly once. -/
theorem c4_one_rate_per_person_day (allocation : List IOAlloc)
    (rates : RemunerationRates) (p d : String)
    (h : ∃ a ∈ allocation, a.ioName = p ∧ a.date = d) :
    ((io_remuneration allocation rates).filter
        (fun r => r.ioName == p && r.date == d)).length = 1 ∧
    ∀ r ∈ (io_remuneration allocation rates).filter
        (fun r => r.ioName == p && r.date == d),
      r.amount =
        if (ioGroup allocation p d).any (fun a => a.mockTest) then rates.mock_test
        else if 1 < ((ioGroup allocation p d).map (fun a => a.shift)).dedup.length
        then rates.multiple_shifts
        else rates.single_shift := by
  have hkey : (p, d) ∈ ioKeys allocation := by
    rw [ioKeys, List.mem_dedup, List.mem_map]
    obtain ⟨a, ha, h1, h2⟩ := h
    exact ⟨a, ha, by rw [h1, h2]⟩
  have hnd : (ioKeys allocation).Nodup := List.nodup_dedup _
  have hrw : (io_remuneration allocation rates).filter
      (fun r => r.ioName == p && r.date == d)
      = ((ioKeys allocation).filter (fun k => k.1 == p && k.2 == d)).map
          (ioRemRow allocation rates) := by
    rw [io_remuneration, map_filter_swap]
    rfl
  have hq : ∀ k : String × String, (k.1 == p && k.2 == d) = true ↔ k = (p, d) := by
    intro k
    simp [Prod.ext_iff]
  constructor
  · rw [hrw, List.length_map]
    exact length_filter_eq_one_of_nodup _ (p, d) hq (ioKeys allocation) hnd hkey
  · intro r hr
    rw [hrw] at hr
    obtain ⟨k, hk, hfk⟩ := List.mem_map.mp hr
    have hkpd : k = (p, d) := (hq k).mp (List.mem_filter.mp hk).2
    subst hkpd
    rw [← hfk]
    rfl

/-- Second allocation of the same coordinator and date, different shift. -/
def w4b : IOAlloc := { wCC with slNo := 2, shift := "Afternoon" }

/-- Default rate table of `init_session_state`. -/
def w4rates : RemunerationRates :=
  { multiple_shifts := 750, single_shift := 450, mock_test := 450,
    ey_personnel := 5000 }

theorem c4_witness :
    (∃ a ∈ [wCC, w4b], a.ioName = "A. Sharma" ∧ a.date = "10-03-2024") ∧
    ((io_remuneration [wCC, w4b] w4rates).filter
        (fun r => r.ioName == "A. Sharma" && r.date == "10-03-2024")).length = 1 ∧
    (∀ r ∈ (io_remuneration [wCC, w4b] w4rates).filter
        (fun r => r.ioName == "A. Sharma" && r.date == "10-03-2024"),
      r.amount =
        if (ioGroup [wCC, w4b] "A. Sharma" "10-03-2024").any (fun a => a.mockTest)
        then w4rates.mock_test
        else if 1 < ((ioGroup [wCC, w4b] "A. Sharma" "10-03-2024").map
            (fun a => a.shift)).dedup.length
        then w4rates.multiple_shifts
        else w4rates.single_shift) ∧
    io_remuneration [wCC, w4b] w4rates
      = [{ ioName := "A. Sharma", date := "10-03-2024", totalShifts := 2,
           shiftLabel := "Multiple Shifts", amount := 750 }] :=
  ⟨by decide,
    (c4_one_rate_per_person_day [wCC, w4b] w4rates "A. Sharma" "10-03-2024"
      (by decide)).1,
    (c4_one_rate_per_person_day [wCC, w4b] w4rates "A. Sharma" "10-03-2024"
      (by decide)).2,
    by decide⟩

/-- A stored authorization reference, as saved by `show_reference_dialog`
(keys `order_no`, `page_no`, `remarks`, `timestamp`, `allocation_type`). -/
structure Reference where
  order_no : String
  page_no : String
  remarks : String
  timestamp : String
  allocation_type : String
deriving DecidableEq, Repr

/-- The reference store `st.session_state.allocation_references`: an
insertion-ordered mapping from exam key to a mapping from role label to
reference, modelled as nested association lists. -/
abbrev RefStore := List (String × List (String × Reference))

/-- Python dict assignment `d[k] = v`: replace in place when the key exists,
append at the end otherwise. -/
def dictSet {β : Type} (l : List (String × β)) (k : String) (v : β) :
    List (String × β) :=
  match l with
  | [] => [(k, v)]
  | (k0, v0) :: rest =>
    if k0 == k then (k, v) :: rest else (k0, v0) :: dictSet rest k v

/-- Python `del d[k]` on a dict known to contain `k` (dict keys are unique,
so removing the first occurrence is exact). -/
def dictDel {β : Type} (l : List (String × β)) (k : String) :
    List (String × β) :=
  match l with
  | [] => []
  | (k0, v0) :: rest => if k0 == k then rest else (k0, v0) :: dictDel rest k

/-- The deletion authorization collected by `ask_for_deletion_reference`
(confirmed dialog result: `order_no` and `reason`). -/
structure DeletionRef where
  order_no : String
  reason : String
deriving DecidableEq, Repr

/-- The original record copied into a deleted-record entry. -/
inductive DeletedBase where
  | coord (a : IOAlloc)
  | ey (a : EYAlloc)
deriving DecidableEq, Repr

/-- A deleted-record log entry: the copied allocation plus the four fields
stamped on deletion (`Deletion Reason`, `Deletion Order No.`,
`Deletion Timestamp`, `Type`). -/
structure DeletedRecord where
  base : DeletedBase
  deletionReason : String
  deletionOrderNo : String
  deletionTimestamp : String
  typeTag : String
deriving DecidableEq, Repr

/-- Per-exam stored data (`exam_data[key]`). -/
structure ExamRecord where
  io_allocations : List IOAlloc
  ey_allocations : List EYAlloc
deriving DecidableEq, Repr

/-- The mutable session state of the application, restricted to the fields
the verified operations read or write. -/
structure AppState where
  allocation : List IOAlloc
  ey_allocation : List EYAlloc
  deleted_records : List DeletedRecord
  exam_data : List (String × ExamRecord)
  current_exam_key : String
  exam_name : String
  exam_year : String
  allocation_references : RefStore
  remuneration_rates : RemunerationRates
deriving DecidableEq, Repr

/-- The bucket-ensuring step of `get_allocation_reference`:
`if exam_key not in allocation_references: allocation_references[exam_key] = {}`
(the same statement appears in `main` before displaying references). -/
def ensure_reference_bucket (refs : RefStore) (examKey : String) : RefStore :=
  if (refs.lookup examKey).isSome then refs else refs ++ [(examKey, [])]

/-- Store update performed by the save branch of `show_reference_dialog`:
ensure the exam bucket exists, then assign the reference under the role. -/
def set_reference (refs : RefStore) (examKey refType : String)
    (ref : Reference) : RefStore :=
  let refs0 := ensure_reference_bucket refs examKey
  let bucket := (refs0.lookup examKey).getD []
  dictSet refs0 examKey (dictSet bucket refType ref)

/-- Embedding of the `Save Reference` branch of `show_reference_dialog`:
the Python truthiness test `if order_no and page_no` succeeds exactly when
both strings are non-empty; on failure an error is shown and nothing is
mutated (the Bool result distinguishes the two outcomes). -/
def save_reference (st : AppState) (refType orderNo pageNo remarks ts : String) :
    AppState × Bool :=
  if orderNo ≠ "" ∧ pageNo ≠ "" then
    let newRef : Reference := Reference.mk orderNo pageNo remarks ts refType
    let refs2 := set_reference st.allocation_references st.current_exam_key refType newRef
    ({ st with allocation_references := refs2 }, true)
  else (st, false)

/-- The `Delete Exam References` action of `view_allocation_references`:
guarded by membership, then `del allocation_references[selected_exam]`. -/
def delete_exam_references (refs : RefStore) (examKey : String) : RefStore :=
  if (refs.lookup examKey).isSome then dictDel refs examKey else refs

/-- The `Delete All References` action: the store is reset to empty. -/
def delete_all_references (_refs : RefStore) : RefStore := []

/-- Whether some exam key maps to an empty role bucket. -/
def has_empty_bucket (refs : RefStore) : Bool :=
  refs.any (fun kv => kv.2.isEmpty)

/-- The coordinator allocation dict built in `main` on a successful
allocation, snapshotting the reference's order number, page number and
remarks by value. -/
def make_coord_allocation (st : AppState) (venue date shift ioName area role : String)
    (mockTest : Bool) (refData : Reference) : IOAlloc :=
  { slNo := st.allocation.length + 1
    venue := venue, date := date, shift := shift
    ioName := ioName, area := area, role := role
    mockTest := mockTest
    exam := st.current_exam_key
    orderNo := refData.order_no
    pageNo := refData.page_no
    refRemarks := refData.remarks }

/-- Contact fields of a selected EY person (`ey_details` entry in `main`). -/
structure EYInfo where
  name : String
  mobile : String
  email : String
  id_number : String
  designation : String
  department : String
deriving DecidableEq, Repr

/-- The EY allocation dict built in `main` on a successful allocation
(mock-test flag fixed `False`, EY rate snapshot included). -/
def make_ey_allocation (st : AppState) (venue date shift : String)
    (eyInfo : EYInfo) (refData : Reference) : EYAlloc :=
  { slNo := st.ey_allocation.length + 1
    venue := venue, date := date, shift := shift
    eyPersonnel := eyInfo.name
    mobile := eyInfo.mobile, email := eyInfo.email
    idNumber := eyInfo.id_number
    designation := eyInfo.designation, department := eyInfo.department
    mockTest := false
    exam := st.current_exam_key
    rate := st.remuneration_rates.ey_personnel
    orderNo := refData.order_no
    pageNo := refData.page_no
    refRemarks := refData.remarks }

/-- The `Delete Last Entry` action on the coordinator list: when the list is
non-empty and a deletion reference was confirmed, copy the last entry into
the deleted-record log stamped with reason, order number, timestamp and the
kind tag `IO`, then pop it. -/
def delete_last_coord (st : AppState) (delRef : DeletionRef) (now : String) :
    AppState :=
  match st.allocation.getLast? with
  | none => st
  | some lastA =>
    let entry : DeletedRecord :=
      DeletedRecord.mk (DeletedBase.coord lastA) delRef.reason delRef.order_no now "IO"
    { st with
      deleted_records := st.deleted_records ++ [entry]
      allocation := st.allocation.dropLast }

/-- The `Delete Last EY Entry` action, with kind tag `EY Personnel`. -/
def delete_last_ey (st : AppState) (delRef : DeletionRef) (now : String) :
    AppState :=
  match st.ey_allocation.getLast? with
  | none => st
  | some lastA =>
    let entry : DeletedRecord :=
      DeletedRecord.mk (DeletedBase.ey lastA) delRef.reason delRef.order_no now "EY Personnel"
    { st with
      deleted_records := st.deleted_records ++ [entry]
      ey_allocation := st.ey_allocation.dropLast }

/-- Error raised by Python code the embedding keeps total. -/
inductive PyError where
  | keyError (k : String)
deriving DecidableEq, Repr

/-- Embedding of `create_backup(exam_key)`: the backup file receives a dump
of the whole `exam_data` unit (the `exam_key` argument only names the file). -/
def create_backup (st : AppState) : List (String × ExamRecord) := st.exam_data

/-- The `Delete Exam` action in `main`: gated on the confirmation checkbox;
when confirmed it writes a backup of `exam_data`, then executes
`del exam_data[current_exam_key]` — which raises `KeyError` when the key is
absent — and clears the active context.  The returned pair carries the new
state and the backup written (none when not confirmed). -/
def delete_exam (st : AppState) (confirm : Bool) :
    Except PyError (AppState × Option (List (String × ExamRecord))) :=
  if confirm then
    let backup := create_backup st
    match st.exam_data.lookup st.current_exam_key with
    | some _ =>
      Except.ok ({ st with
        exam_data := dictDel st.exam_data st.current_exam_key
        allocation := []
        ey_allocation := []
        current_exam_key := ""
        exam_name := ""
        exam_year := "" }, some backup)
    | none => Except.error (PyError.keyError st.current_exam_key)
  else Except.ok (st, none)

lemma lookup_dictSet_self {β : Type} (k : String) (v : β) :
    ∀ l : List (String × β), (dictSet l k v).lookup k = some v := by
  intro l
  induction l with
  | nil => simp [dictSet, List.lookup]
  | cons kv rest ih =>
    obtain ⟨k0, v0⟩ := kv
    by_cases h : (k0 == k) = true
    · rw [dictSet, if_pos h]
      simp [List.lookup]
    · rw [dictSet, if_neg h]
      have hne : (k == k0) = false := by
        rw [beq_eq_false_iff_ne]
        rw [beq_iff_eq] at h
        exact fun he => h he.symm
      simp [List.lookup, hne, ih]

lemma lookup_eq_none_of_not_mem_keys {β : Type} (k : String) :
    ∀ l : List (String × β), k ∉ l.map Prod.fst → l.lookup k = none := by
  intro l
  induction l with
  | nil => intro _; rfl
  | cons kv rest ih =>
    intro h
    obtain ⟨k0, v0⟩ := kv
    simp only [List.map_cons, List.mem_cons] at h
    push_neg at h
    have hne : (k == k0) = false := by
      rw [beq_eq_false_iff_ne]
      exact h.1
    simp [List.lookup, hne, ih h.2]

lemma lookup_dictDel_self {β : Type} (k : String) :
    ∀ l : List (String × β), (l.map Prod.fst).Nodup →
      (dictDel l k).lookup k = none := by
  intro l
  induction l with
  | nil => intro _; rfl
  | cons kv rest ih =>
    intro hnd
    obtain ⟨k0, v0⟩ := kv
    simp only [List.map_cons, List.nodup_cons] at hnd
    by_cases h : (k0 == k) = true
    · rw [dictDel, if_pos h]
      rw [beq_iff_eq] at h
      subst h
      exact lookup_eq_none_of_not_mem_keys k0 rest hnd.1
    · rw [dictDel, if_neg h]
      have hne : (k == k0) = false := by
        rw [beq_eq_false_iff_ne]
        rw [beq_iff_eq] at h
        exact fun he => h he.symm
      simp [List.lookup, hne, ih hnd.2]

lemma has_empty_bucket_dictDel (k : String) :
    ∀ refs : RefStore, has_empty_bucket refs = false →
      has_empty_bucket (dictDel refs k) = false := by
  intro refs
  induction refs with
  | nil => intro h; exact h
  | cons kv rest ih =>
    intro h
    obtain ⟨k0, bucket⟩ := kv
    rw [has_empty_bucket, List.any_cons, Bool.or_eq_false_iff] at h
    rw [dictDel]
    by_cases hb : (k0 == k) = true
    · rw [if_pos hb]
      exact h.2
    · rw [if_neg hb]
      rw [has_empty_bucket, List.any_cons, Bool.or_eq_false_iff]
      exact ⟨h.1, ih h.2⟩

/-- C5. Deleting the last entry of a non-empty active list appends to the
deleted-record log exactly one record whose copied fields are the removed
allocation, stamped with reason, order number, timestamp and kind tag, and
removes exactly that entry (the list shrinks by one); on an empty list the
operation does nothing.  Both the coordinator and the EY variant are
covered. -/
theorem c5_delete_last_moves_record (st : AppState) (delRef : DeletionRef)
    (now : String) :
    (∀ lastA, st.allocation.getLast? = some lastA →
      (delete_last_coord st delRef now).deleted_records
          = st.deleted_records ++
            [DeletedRecord.mk (DeletedBase.coord lastA) delRef.reason
              delRef.order_no now "IO"] ∧
      (delete_last_coord st delRef now).allocation ++ [lastA] = st.allocation ∧
      (delete_last_coord st delRef now).allocation.length + 1
          = st.allocation.length) ∧
    (st.allocation = [] → delete_last_coord st delRef now = st) ∧
    (∀ lastE, st.ey_allocation.getLast? = some lastE →
      (delete_last_ey st delRef now).deleted_records
          = st.deleted_records ++
            [DeletedRecord.mk (DeletedBase.ey lastE) delRef.reason
              delRef.order_no now "EY Personnel"] ∧
      (delete_last_ey st delRef now).ey_allocation ++ [lastE] = st.ey_allocation ∧
      (delete_last_ey st delRef now).ey_allocation.length + 1
          = st.ey_allocation.length) ∧
    (st.ey_allocation = [] → delete_last_ey st delRef now = st) := by
  refine ⟨?_, ?_, ?_, ?_⟩
  · intro lastA hl
    have hrest : st.allocation.dropLast ++ [lastA] = st.allocation :=
      List.dropLast_append_getLast? lastA (Option.mem_def.mpr hl)
    have hres : delete_last_coord st delRef now
        = { st with
            deleted_records := st.deleted_records ++
              [DeletedRecord.mk (DeletedBase.coord lastA) delRef.reason
                delRef.order_no now "IO"]
            allocation := st.allocation.dropLast } := by
      rw [delete_last_coord, hl]
    refine ⟨by rw [hres], by rw [hres]; exact hrest, ?_⟩
    rw [hres]
    show st.allocation.dropLast.length + 1 = st.allocation.length
    calc st.allocation.dropLast.length + 1
        = (st.allocation.dropLast ++ [lastA]).length := by
          rw [List.length_append]
          rfl
      _ = st.allocation.length := by rw [hrest]
  · intro he
    rw [delete_last_coord, he]
    rfl
  · intro lastE hl
    have hrest : st.ey_allocation.dropLast ++ [lastE] = st.ey_allocation :=
      List.dropLast_append_getLast? lastE (Option.mem_def.mpr hl)
    have hres : delete_last_ey st delRef now
        = { st with
            deleted_records := st.deleted_records ++
              [DeletedRecord.mk (DeletedBase.ey lastE) delRef.reason
                delRef.order_no now "EY Personnel"]
            ey_allocation := st.ey_allocation.dropLast } := by
      rw [delete_last_ey, hl]
    refine ⟨by rw [hres], by rw [hres]; exact hrest, ?_⟩
    rw [hres]
    show st.ey_allocation.dropLast.length + 1 = st.ey_allocation.length
    calc st.ey_allocation.dropLast.length + 1
        = (st.ey_allocation.dropLast ++ [lastE]).length := by
          rw [List.length_append]
          rfl
      _ = st.ey_allocation.length := by rw [hrest]
  · intro he
    rw [delete_last_ey, he]
    rfl

/-- Session state with one coordinator and one EY allocation, used by the
C5 witness. -/
def w5st : AppState :=
  { allocation := [wCC], ey_allocation := [wEY], deleted_records := [],
    exam_data := [], current_exam_key := "CGL - 2024", exam_name := "CGL",
    exam_year := "2024", allocation_references := [],
    remuneration_rates := RemunerationRates.mk 750 450 450 5000 }

/-- Deletion authorization used by the C5 witness. -/
def w5ref : DeletionRef := DeletionRef.mk "99/ER/2024" "Allocated in error"

theorem c5_witness :
    (w5st.allocation.getLast? = some wCC) ∧
    ((delete_last_coord w5st w5ref "T1").allocation ++ [wCC] = w5st.allocation) ∧
    ((delete_last_coord w5st w5ref "T1").deleted_records
      = [DeletedRecord.mk (DeletedBase.coord wCC) "Allocated in error"
          "99/ER/2024" "T1" "IO"]) := by
  have h := (c5_delete_last_moves_record w5st w5ref "T1").1 wCC (by rfl)
  exact ⟨by rfl, h.2.1, by rw [h.1]; rfl⟩

/-- C6. Allocation records of both kinds copy the authorizing reference's
order number, page number and remarks by value at creation, and saving a
(possibly replacing) reference afterwards leaves the allocation lists —
hence every already-created record and its snapshot fields — unchanged. -/
theorem c6_reference_snapshot_is_permanent (st : AppState)
    (venue date shift ioName area role : String) (mockTest : Bool)
    (refData : Reference) (eyInfo : EYInfo)
    (refType orderNo pageNo remarks ts : String) :
    (make_coord_allocation st venue date shift ioName area role mockTest refData).orderNo
        = refData.order_no ∧
    (make_coord_allocation st venue date shift ioName area role mockTest refData).pageNo
        = refData.page_no ∧
    (make_coord_allocation st venue date shift ioName area role mockTest refData).refRemarks
        = refData.remarks ∧
    (make_ey_allocation st venue date shift eyInfo refData).orderNo = refData.order_no ∧
    (make_ey_allocation st venue date shift eyInfo refData).pageNo = refData.page_no ∧
    (make_ey_allocation st venue date shift eyInfo refData).refRemarks = refData.remarks ∧
    ((save_reference st refType orderNo pageNo remarks ts).1).allocation = st.allocation ∧
    ((save_reference st refType orderNo pageNo remarks ts).1).ey_allocation
        = st.ey_allocation := by
  refine ⟨rfl, rfl, rfl, rfl, rfl, rfl, ?_, ?_⟩ <;>
    (rw [save_reference]; split <;> rfl)

lemma lookup_set_reference_self (refs : RefStore) (k rt : String) (ref : Reference) :
    ((set_reference refs k rt ref).lookup k).bind (fun bucket => bucket.lookup rt)
      = some ref := by
  show ((dictSet (ensure_reference_bucket refs k) k
      (dictSet (((ensure_reference_bucket refs k).lookup k).getD []) rt ref)).lookup
        k).bind (fun bucket => bucket.lookup rt) = some ref
  rw [lookup_dictSet_self]
  show (dictSet (((ensure_reference_bucket refs k).lookup k).getD []) rt ref).lookup rt
      = some ref
  exact lookup_dictSet_self rt ref _

/-- C7. Saving a reference is rejected with no state change when the order
number or the page number is empty; with both non-empty it succeeds and the
store afterwards maps (current exam key, role) to exactly the new reference
carrying the creation timestamp — overwriting whatever was there before. -/
theorem c7_save_reference_validates_and_overwrites (st : AppState)
    (refType orderNo pageNo remarks ts : String) :
    ((orderNo = "" ∨ pageNo = "") →
      save_reference st refType orderNo pageNo remarks ts = (st, false)) ∧
    (orderNo ≠ "" → pageNo ≠ "" →
      (save_reference st refType orderNo pageNo remarks ts).2 = true ∧
      (((save_reference st refType orderNo pageNo remarks ts).1).allocation_references.lookup
          st.current_exam_key).bind (fun bucket => bucket.lookup refType)
        = some (Reference.mk orderNo pageNo remarks ts refType)) := by
  constructor
  · intro h
    rw [save_reference, if_neg]
    intro hc
    rcases h with h | h
    · exact hc.1 h
    · exact hc.2 h
  · intro h1 h2
    have hres : save_reference st refType orderNo pageNo remarks ts
        = ({ st with allocation_references := set_reference st.allocation_references st.current_exam_key refType (Reference.mk orderNo pageNo remarks ts refType) }, true) := by
      rw [save_reference, if_pos ⟨h1, h2⟩]
    refine ⟨by rw [hres], ?_⟩
    rw [hres]
    exact lookup_set_reference_self st.allocation_references st.current_exam_key
      refType (Reference.mk orderNo pageNo remarks ts refType)

/-- Session state with an active exam and empty reference store, used by the
C7 witness. -/
def w7st : AppState :=
  { allocation := [], ey_allocation := [], deleted_records := [],
    exam_data := [], current_exam_key := "CGL - 2024", exam_name := "CGL",
    exam_year := "2024", allocation_references := [],
    remuneration_rates := RemunerationRates.mk 750 450 450 5000 }

theorem c7_witness :
    ("12/ER/2024" ≠ "" ∧ "5" ≠ "") ∧
    (save_reference w7st "Centre Coordinator" "12/ER/2024" "5" "as per order" "T0").2
        = true ∧
    (((save_reference w7st "Centre Coordinator" "12/ER/2024" "5" "as per order"
          "T0").1).allocation_references.lookup "CGL - 2024").bind
        (fun bucket => bucket.lookup "Centre Coordinator")
      = some (Reference.mk "12/ER/2024" "5" "as per order" "T0" "Centre Coordinator") ∧
    save_reference w7st "Centre Coordinator" "" "5" "" "T0" = (w7st, false) := by
  have hok := (c7_save_reference_validates_and_overwrites w7st "Centre Coordinator"
    "12/ER/2024" "5" "as per order" "T0").2 (by decide) (by decide)
  have hrej := (c7_save_reference_validates_and_overwrites w7st "Centre Coordinator"
    "" "5" "" "T0").1 (Or.inl rfl)
  exact ⟨⟨by decide, by decide⟩, hok.1, hok.2, hrej⟩

/-- The state after a confirmed, successful exam deletion: the exam removed
from the store, the loaded lists emptied, the active context cleared. -/
def exam_deleted_state (st : AppState) : AppState :=
  { st with
    exam_data := dictDel st.exam_data st.current_exam_key
    allocation := []
    ey_allocation := []
    current_exam_key := ""
    exam_name := ""
    exam_year := "" }

/-- C8 (amended). Exam deletion does nothing without the confirmation gate;
when confirmed and the active key is present it returns a backup of the
whole exam-data unit taken before removal (hence containing the deleted
exam's record), removes the exam and clears the active context and loaded
lists; but when the active key is absent, the unguarded `del` raises a
`KeyError` instead of the claimed silent no-op. -/
theorem c8_delete_exam_confirm_backup_clear (st : AppState)
    (hnd : (st.exam_data.map Prod.fst).Nodup) :
    (delete_exam st false = Except.ok (st, none)) ∧
    ((st.exam_data.lookup st.current_exam_key).isSome = true →
      ∃ st2, delete_exam st true = Except.ok (st2, some (create_backup st)) ∧
        (create_backup st).lookup st.current_exam_key
            = st.exam_data.lookup st.current_exam_key ∧
        st2.exam_data = dictDel st.exam_data st.current_exam_key ∧
        st2.exam_data.lookup st.current_exam_key = none ∧
        st2.allocation = [] ∧ st2.ey_allocation = [] ∧ st2.current_exam_key = "" ∧
        st2.deleted_records = st.deleted_records ∧
        st2.allocation_references = st.allocation_references) ∧
    (st.exam_data.lookup st.current_exam_key = none →
      delete_exam st true = Except.error (PyError.keyError st.current_exam_key)) := by
  refine ⟨rfl, ?_, ?_⟩
  · intro hs
    cases hl : st.exam_data.lookup st.current_exam_key with
    | none => rw [hl] at hs; exact absurd hs (by simp)
    | some r =>
      have heq : delete_exam st true
          = Except.ok (exam_deleted_state st, some (create_backup st)) := by
        rw [delete_exam, if_pos rfl, hl]
        rfl
      exact ⟨exam_deleted_state st, heq, hl, rfl,
        lookup_dictDel_self st.current_exam_key st.exam_data hnd,
        rfl, rfl, rfl, rfl, rfl⟩
  · intro hl
    rw [delete_exam, if_pos rfl, hl]

/-- A state whose active exam key is not a key of the exam store. -/
def c8badState : AppState :=
  { allocation := [], ey_allocation := [], deleted_records := [],
    exam_data := [], current_exam_key := "Missing Exam - 2024",
    exam_name := "", exam_year := "", allocation_references := [],
    remuneration_rates := RemunerationRates.mk 750 450 450 5000 }

/-- C8 counterexample: with the key absent, the confirmed deletion raises
`KeyError` (the `del` on line 1134 of `app.py` is unguarded), so it is not
the silent no-op the claim states. -/
theorem c8_counterexample :
    delete_exam c8badState true
      = Except.error (PyError.keyError "Missing Exam - 2024") := rfl

/-- Exam store with one exam, used by the C8 witness. -/
def w8st : AppState :=
  { allocation := [wCC], ey_allocation := [], deleted_records := [],
    exam_data := [("CGL - 2024", ExamRecord.mk [wCC] [])],
    current_exam_key := "CGL - 2024", exam_name := "CGL", exam_year := "2024",
    allocation_references := [],
    remuneration_rates := RemunerationRates.mk 750 450 450 5000 }

theorem c8_witness :
    ((w8st.exam_data.map Prod.fst).Nodup) ∧
    ((w8st.exam_data.lookup w8st.current_exam_key).isSome = true) ∧
    (∃ st2, delete_exam w8st true = Except.ok (st2, some (create_backup w8st)) ∧
      (create_backup w8st).lookup w8st.current_exam_key
          = w8st.exam_data.lookup w8st.current_exam_key ∧
      st2.exam_data = dictDel w8st.exam_data w8st.current_exam_key ∧
      st2.exam_data.lookup w8st.current_exam_key = none ∧
      st2.allocation = [] ∧ st2.ey_allocation = [] ∧ st2.current_exam_key = "" ∧
      st2.deleted_records = w8st.deleted_records ∧
      st2.allocation_references = w8st.allocation_references) :=
  ⟨by decide, by decide,
    (c8_delete_exam_confirm_backup_clear w8st (by decide)).2.1 (by decide)⟩

/-- C9 (amended). The reference-deletion operations that exist — per-exam
deletion and delete-all — only ever remove whole buckets: the deleted key no
longer resolves, delete-all empties the store, and a deletion never creates
an empty bucket.  (The store-wide claim fails because the lookup path
creates empty buckets that survive deletions of other keys; see the
counterexample.) -/
theorem c9_deletions_remove_whole_buckets (refs : RefStore) (k : String)
    (hnd : (refs.map Prod.fst).Nodup) :
    (delete_exam_references refs k).lookup k = none ∧
    (has_empty_bucket refs = false →
      has_empty_bucket (delete_exam_references refs k) = false) ∧
    delete_all_references refs = [] := by
  refine ⟨?_, ?_, rfl⟩
  · rw [delete_exam_references]
    cases hl : refs.lookup k with
    | none =>
      simp only [Option.isSome_none, Bool.false_eq_true, if_false]
      exact hl
    | some b =>
      simp only [Option.isSome_some, if_true]
      exact lookup_dictDel_self k refs hnd
  · intro h
    rw [delete_exam_references]
    by_cases hh : (refs.lookup k).isSome = true
    · rw [if_pos hh]
      exact has_empty_bucket_dictDel k refs h
    · rw [if_neg hh]
      exact h

/-- Reference store reached by the lookup path touching exam A (creating its
empty bucket) and a reference then saved for exam B — both operations the
application performs (`get_allocation_reference`, `show_reference_dialog`). -/
def w9store : RefStore :=
  set_reference (ensure_reference_bucket [] "Exam A - 2024") "Exam B - 2024"
    "Centre Coordinator" (Reference.mk "10/ER/2024" "3" "" "T1" "Centre Coordinator")

/-- C9 counterexample: deleting exam B's references leaves exam A mapped to
an empty bucket, so after a reference-deletion operation an empty bucket
does persist in the store. -/
theorem c9_counterexample :
    delete_exam_references w9store "Exam B - 2024" = [("Exam A - 2024", [])] ∧
    has_empty_bucket (delete_exam_references w9store "Exam B - 2024") = true := by
  exact ⟨by decide, by decide⟩

theorem c9_witness :
    ((w9store.map Prod.fst).Nodup) ∧
    (delete_exam_references w9store "Exam B - 2024").lookup "Exam B - 2024" = none :=
  ⟨by decide,
    (c9_deletions_remove_whole_buckets w9store "Exam B - 2024" (by decide)).1⟩
